import Mathlib

/-!
Verification development for the edgy ORM excerpt: the many-to-many field
construction subsystem (`edgy/core/db/fields/many_to_many.py`), the base model
class hierarchy (`edgy/core/db/models/base.py`) and the row materializer
(`edgy/core/db/models/row.py`).

Python dictionaries are embedded as ordered association lists with Python's
insertion semantics: assigning to an existing key keeps its position, a new key
is appended at the end.  Exceptions are embedded as `Except String`.
-/

/-- Ordered association list standing for a Python `dict`. -/
abbrev PyAList (α : Type) := List (String × α)

/-- `d[k]`, returning `none` where Python would raise `KeyError`. -/
def dictGet {α : Type} : PyAList α → String → Option α
  | [], _ => Option.none
  | (k2, v) :: t, k => if k2 == k then some v else dictGet t k

/-- `d.get(k, dflt)`. -/
def dictGetD {α : Type} (d : PyAList α) (k : String) (dflt : α) : α :=
  (dictGet d k).getD dflt

/-- `d[k] = v` with Python `dict` semantics: an existing key is updated in
place, a new key is appended at the end. -/
def dictSet {α : Type} : PyAList α → String → α → PyAList α
  | [], k, v => [(k, v)]
  | (k2, w) :: t, k, v =>
    if k2 == k then (k, v) :: t else (k2, w) :: dictSet t k v

/-- `d.pop(k, ...)`: the dictionary with the binding of `k` removed. -/
def dictRemove {α : Type} : PyAList α → String → PyAList α
  | [], _ => []
  | (k2, w) :: t, k =>
    if k2 == k then dictRemove t k else (k2, w) :: dictRemove t k

/-- `k in d`. -/
def dictContains {α : Type} : PyAList α → String → Bool
  | [], _ => false
  | (k2, _) :: t, k => k2 == k || dictContains t k

/-- ASCII lower-casing of one character. -/
def charLower (c : Char) : Char :=
  if 65 ≤ c.toNat && c.toNat ≤ 90 then Char.ofNat (c.toNat + 32) else c

/-- Python `str.lower()` on the ASCII identifiers this excerpt lower-cases
(class and field names); defined over the character list so that it reduces
inside the kernel. -/
def strLower (s : String) : String := ⟨s.data.map charLower⟩

/-- Runtime values held in a model instance's attribute storage.  `inst`
stands for a (possibly partially populated) model instance stored as an
attribute value, as produced by relationship expansion and by the row
materializer. -/
inductive PyVal where
  | none
  | int (n : Int)
  | str (s : String)
  | bool (b : Bool)
  | inst (className : String) (dict : List (String × PyVal))

/-- A model instance's `__dict__`. -/
abbrev PyDict := PyAList PyVal

mutual

/-- Structural equality of runtime values, mirroring Python `==` on the scalar
constructors; two stored instances compare by class name and attribute
storage. -/
def pyValBeq : PyVal → PyVal → Bool
  | .none, .none => true
  | .int a, .int b => a == b
  | .str a, .str b => a == b
  | .bool a, .bool b => a == b
  | .inst n d, .inst m e => n == m && pyDictBeq d e
  | _, _ => false

def pyDictBeq : PyDict → PyDict → Bool
  | [], [] => true
  | (k, v) :: t, (k2, v2) :: t2 => k == k2 && pyValBeq v v2 && pyDictBeq t t2
  | _, _ => false

end

/-- The relationship kind of a declared field, as far as
`EdgyBaseModel.__setattr__` distinguishes it: a many-to-many field
(`isinstance(field, BaseManyToManyForeignKeyField)`), a foreign-key-like field
whose `expand_relationship` hook builds a related stub, or a plain column
field. -/
inductive FieldKind where
  | plain
  | fk (targetClass : String) (targetPk : String)
  | m2m
  deriving DecidableEq, Repr

/-- The class-level data of an Edgy model that the excerpt reads: its name,
`pkname`, `meta.fields_mapping` (keys), `fields` (keys), the attribute names
`hasattr` finds on a fresh instance, the relationship kind of each field, the
`meta.foreign_key_fields` mapping (field name to target model name), the
`.target` of each relationship field (as a model name), the reverse-relation
accessors (`related_from`) and the names of `cls.table.columns`.  The
metaclass that assembles these mappings is outside the excerpt, so they are
kept as independent components of the model description. -/
structure Model where
  className : String
  pkname : String := "id"
  fields_mapping : List String := []
  fields : List String := []
  hasattrs : List String := []
  fieldKinds : PyAList FieldKind := []
  foreign_key_fields : PyAList String := []
  field_targets : PyAList String := []
  related_from : PyAList String := []
  columns : List String := []
  deriving DecidableEq, Repr

/-- A model instance: its class plus its backing attribute storage
(`__dict__`). -/
structure Instance where
  model : Model
  dict : PyDict

/-- `edgy_setattr` (from `edgy.core.utils.functional`, outside the excerpt) is
a raw attribute write: `EdgyBaseModel.__setattr__` terminates by calling it,
so it cannot itself dispatch back to `__setattr__`. -/
def edgy_setattr (i : Instance) (k : String) (v : PyVal) : Instance :=
  { i with dict := dictSet i.dict k v }

/-- Modelled from the spec: `settings.many_to_many_relation` (the template
formatted with the field's own name in `__setattr__`'s many-to-many branch) is
configured outside the excerpt; the formatted side-channel attribute name is
modelled as a fixed function of the field name. -/
def many_to_many_relation_name (key : String) : String :=
  "relation_" ++ key

/-- Modelled from the spec: `BaseField.expand_relationship` lives in the
field-base component outside the excerpt.  Per the spec, assigning a bare
primary-key value to a foreign-key field produces a lazily-loaded
related-object stub holding just that primary key, while a plain column
field's hook returns the value unchanged. -/
def expand_relationship (kind : FieldKind) (v : PyVal) : PyVal :=
  match kind with
  | FieldKind.fk target targetPk => PyVal.inst target [(targetPk, v)]
  | _ => v

/-- `EdgyBaseModel.__setattr__`: a declared many-to-many field re-reads the
side-channel relation attribute (`AttributeError` if absent), any other
declared field stores `expand_relationship` of the value, and a non-field name
is written through unchanged. -/
def EdgyBaseModel_setattr (i : Instance) (key : String) (v : PyVal) :
    Except String Instance :=
  if i.model.fields.contains key then
    match dictGetD i.model.fieldKinds key FieldKind.plain with
    | FieldKind.m2m =>
      match dictGet i.dict (many_to_many_relation_name key) with
      | some v2 => Except.ok (edgy_setattr i key v2)
      | Option.none =>
        Except.error ("AttributeError: " ++ many_to_many_relation_name key)
    | k => Except.ok (edgy_setattr i key (expand_relationship k v))
  else Except.ok (edgy_setattr i key v)

/-- The per-key check of the loop in
`EdgyBaseModel.setup_model_fields_from_kwargs`: a key that is neither in
`self.fields` nor found by `hasattr` raises
`ValueError(f"Invalid keyword {key} for class {...}")`.  The loop's writes go
through `edgy_setattr` (a raw attribute write) and are read straight back, so
the value set itself is unchanged by the loop. -/
def checkKeywords (m : Model) : PyDict → Except String Unit
  | [] => Except.ok ()
  | (k, _) :: rest =>
    if m.fields.contains k then checkKeywords m rest
    else if m.hasattrs.contains k then checkKeywords m rest
    else Except.error ("Invalid keyword " ++ k ++ " for class " ++ m.className)

/-- `EdgyBaseModel.setup_model_fields_from_kwargs`: a `pk` key is renamed to
`self.pkname`, the kwargs are filtered down to keys of
`self.meta.fields_mapping`, and every surviving key is checked (see
`checkKeywords`). -/
def setup_model_fields_from_kwargs (m : Model) (kwargs : PyDict) :
    Except String PyDict :=
  let kwargs := match dictGet kwargs "pk" with
    | some v => dictSet (dictRemove kwargs "pk") m.pkname v
    | Option.none => kwargs
  let kwargs := kwargs.filter (fun kv => m.fields_mapping.contains kv.1)
  match checkKeywords m kwargs with
  | Except.error e => Except.error e
  | Except.ok _ => Except.ok kwargs

/-- `EdgyBaseModel.__init__`: the pydantic base's validation pass (external,
permissive `extra="allow"` configuration) is a no-op on the value set here;
the result of `setup_model_fields_from_kwargs` then replaces the instance's
`__dict__` wholesale. -/
def EdgyBaseModel_init (m : Model) (kwargs : PyDict) : Except String Instance :=
  match setup_model_fields_from_kwargs m kwargs with
  | Except.error e => Except.error e
  | Except.ok values => Except.ok { model := m, dict := values }

/-- `EdgyBaseModel.pk` getter: `getattr(self, self.pkname)`; `none` stands for
the `AttributeError` raised when the attribute is missing. -/
def EdgyBaseModel_pk_get (i : Instance) : Option PyVal :=
  dictGet i.dict i.model.pkname

/-- `EdgyBaseModel.pk` setter: `edgy_setattr(self, self.pkname, value)`, a raw
write that does not dispatch through `__setattr__`. -/
def EdgyBaseModel_pk_set (i : Instance) (v : PyVal) : Instance :=
  edgy_setattr i i.model.pkname v

/-- `EdgyBaseReflectModel.pk` getter: `getattr(self, self.pkname, None)`. -/
def EdgyBaseReflectModel_pk_get (i : Instance) : PyVal :=
  (dictGet i.dict i.model.pkname).getD PyVal.none

/-- `EdgyBaseReflectModel.pk` setter: `setattr(self, self.pkname, value)`,
which dispatches through the inherited `EdgyBaseModel.__setattr__`. -/
def EdgyBaseReflectModel_pk_set (i : Instance) (v : PyVal) :
    Except String Instance :=
  EdgyBaseModel_setattr i i.model.pkname v

/-- `EdgyBaseModel.__eq__`: same runtime class, and for every key of
`self.fields` the two sides' `getattr(..., key, None)` values compare
equal. -/
def instanceEq (a b : Instance) : Bool :=
  decide (a.model = b.model) &&
    a.model.fields.all (fun k =>
      pyValBeq (dictGetD a.dict k PyVal.none) (dictGetD b.dict k PyVal.none))

/-- Values passed as keyword options to the field factory
(`ForeignKeyFieldFactory.__new__`): scalars, a model reference (the `to` /
`through` / `owner` / `registry` objects) or a Python type object (the
factory's `cls._type`). -/
inductive FVal where
  | none
  | str (s : String)
  | bool (b : Bool)
  | int (n : Int)
  | modelRef (name : String)
  | typeRef (name : String)
  deriving DecidableEq, Repr

/-- Keyword-argument dictionary of the field factory. -/
abbrev FDict := PyAList FVal

/-- Python truthiness of an option value (`if null:`, `if related_name:`). -/
def fvalTruthy : FVal → Bool
  | FVal.none => false
  | FVal.str s => !(s == "")
  | FVal.bool b => b
  | FVal.int n => !(n == 0)
  | FVal.modelRef _ => true
  | FVal.typeRef _ => true

/-- Modelled from the spec: `CASCADE` from `edgy.core.db.constants` (module
not in the excerpt), the on-update default and the bridge models' on-delete
action. -/
def CASCADE : String := "CASCADE"

/-- Modelled from the spec: `RESTRICT` from `edgy.core.db.constants` (module
not in the excerpt), the on-delete default of the factory. -/
def RESTRICT : String := "RESTRICT"

/-- `ManyToManyField.validate`: a truthy `related_name` must be a string
(`assert isinstance(related_name, str)`), and the lower-cased name (or `None`)
is written back into `validate`'s own `kwargs` dictionary.  Because the
factory invokes it as `cls.validate(**kwargs)`, that dictionary is a fresh
copy whose mutation the caller never sees; the returned dictionary here is
exactly that copy, and `ForeignKeyFieldFactory_new` discards it. -/
def ManyToManyField_validate (kwargs : FDict) : Except String FDict :=
  let related_name := dictGetD kwargs "related_name" FVal.none
  if fvalTruthy related_name then
    match related_name with
    | FVal.str s => Except.ok (dictSet kwargs "related_name" (FVal.str (strLower s)))
    | _ => Except.error "related_name must be a string."
  else Except.ok (dictSet kwargs "related_name" FVal.none)

/-- The field object produced by the factory: the namespace assembled by
`ForeignKeyFieldFactory.__new__` (the synthesized
`type(cls.__name__, (BaseManyToManyForeignKeyField, BaseField), {})` class is
instantiated with exactly this namespace).  `field_type` stands for the
`__type__` / `annotation` / `column_type` entries, which all hold `cls._type`;
`extra` holds the unrecognized options passed through verbatim. -/
structure BaseFieldObj where
  field_type : FVal
  toVal : FVal
  on_update : FVal
  on_delete : FVal
  related_name : FVal
  null : FVal
  comment : FVal
  owner : FVal
  server_default : FVal
  server_onupdate : FVal
  through : FVal
  registry : FVal
  is_m2m : Bool
  is_o2o : FVal
  is_fk : FVal
  constraints : List FVal
  extra : FDict
  deriving DecidableEq, Repr

/-- `kwargs.pop(k, dflt)`: the popped value and the remaining dictionary. -/
def popD (d : FDict) (k : String) (dflt : FVal) : FVal × FDict :=
  (dictGetD d k dflt, dictRemove d k)

/-- `ForeignKeyFieldFactory.__new__` as invoked from
`ManyToManyField.__new__` (so the `validate` hook is `ManyToManyField`'s
override, and `cls._type` is `sqlalchemy.ForeignKey`).  The `validate` call
receives a copy of the kwargs; only its exception escapes, its returned
(normalized) dictionary is dropped.  The recognized options are then popped
with their documented defaults, `is_m2m` is forced `True`, and the remaining
options flow into the namespace verbatim. -/
def ForeignKeyFieldFactory_new (kwargs : FDict) : Except String BaseFieldObj :=
  match ManyToManyField_validate kwargs with
  | Except.error e => Except.error e
  | Except.ok _ =>
    let (toVal, kwargs) := popD kwargs "to" FVal.none
    let (null, kwargs) := popD kwargs "null" (FVal.bool false)
    let (on_update, kwargs) := popD kwargs "on_update" (FVal.str CASCADE)
    let (on_delete, kwargs) := popD kwargs "on_delete" (FVal.str RESTRICT)
    let (related_name, kwargs) := popD kwargs "related_name" FVal.none
    let (comment, kwargs) := popD kwargs "comment" FVal.none
    let (through, kwargs) := popD kwargs "through" FVal.none
    let (owner, kwargs) := popD kwargs "owner" FVal.none
    let (server_default, kwargs) := popD kwargs "server_default" FVal.none
    let (server_onupdate, kwargs) := popD kwargs "server_onupdate" FVal.none
    let (registry, kwargs) := popD kwargs "registry" FVal.none
    let (is_o2o, kwargs) := popD kwargs "is_o2o" (FVal.bool false)
    let (is_fk, kwargs) := popD kwargs "is_fk" (FVal.bool false)
    Except.ok
      { field_type := FVal.typeRef "sqlalchemy.ForeignKey"
        toVal := toVal
        on_update := on_update
        on_delete := on_delete
        related_name := related_name
        null := null
        comment := comment
        owner := owner
        server_default := server_default
        server_onupdate := server_onupdate
        through := through
        registry := registry
        is_m2m := true
        is_o2o := is_o2o
        is_fk := is_fk
        constraints := []
        extra := kwargs }

/-- `ManyToManyField.__new__(cls, to, *, through=None, **kwargs)`: reads
`kwargs.get("null", None)`, emits a terminal warning when it is truthy (the
returned flag), merges the locals `to`, `through` and `null` into the kwargs,
forces `kwargs["null"] = True` and delegates to the base factory. -/
def ManyToManyField_new (toArg : FVal) (through : FVal) (kwargs : FDict) :
    Except String (BaseFieldObj × Bool) :=
  let null := dictGetD kwargs "null" FVal.none
  let warned := fvalTruthy null
  let kwargs := dictSet (dictSet (dictSet kwargs "to" toArg) "through" through) "null" null
  let kwargs := dictSet kwargs "null" (FVal.bool true)
  match ForeignKeyFieldFactory_new kwargs with
  | Except.error e => Except.error e
  | Except.ok f => Except.ok (f, warned)

/-- Field definitions of a synthesized bridge model.  `integerField` stands
for `edgy.IntegerField`; `foreignKey` for
`edgy.core.db.fields.foreign_keys.ForeignKey` with its keyword options `null`,
`on_delete` and `related_name`.  Both constructors live outside the excerpt
and are modelled from the spec by the descriptors they are invoked with. -/
inductive ThroughFieldSpec where
  | integerField (primary_key : Bool) (autoincrement : Bool)
  | foreignKey (target : String) (null : Bool) (on_delete : String)
      (related_name : String)
  deriving DecidableEq, Repr

/-- Modelled from the spec: `edgy.IntegerField` (outside the excerpt); per the
spec's data model, an integer primary key of a bridge model is
auto-incrementing. -/
def IntegerField (primary_key : Bool) : ThroughFieldSpec :=
  ThroughFieldSpec.integerField primary_key primary_key

/-- Modelled from the spec: `ForeignKey(target, null=..., on_delete=...,
related_name=...)` from `edgy.core.db.fields.foreign_keys` (outside the
excerpt), recorded by the options `create_through_model` passes it. -/
def ForeignKey (target : String) (null : Bool) (on_delete : String)
    (related_name : String) : ThroughFieldSpec :=
  ThroughFieldSpec.foreignKey target null on_delete related_name

/-- The `MetaInfo` entries `create_through_model` loads via
`new_meta.load_dict` (the `MetaInfo` machinery itself is outside the
excerpt).  The namespace also carries the registry back-reference, always the
field's own registry; it is left off this record to keep the model and
registry types non-recursive. -/
structure ThroughMeta where
  tablename : String
  is_multi : Bool
  multi_related : List String
  deriving DecidableEq, Repr

/-- A bridge ("through") model as produced by `create_edgy_model` (outside
the excerpt; modelled from the spec as a model class with the given name,
meta and field definitions). -/
structure ThroughModel where
  name : String
  meta : ThroughMeta
  fields : PyAList ThroughFieldSpec
  deriving DecidableEq, Repr

/-- The `through` value carried by a many-to-many field: a registry lookup
name or a model class. -/
inductive ThroughRef where
  | name (s : String)
  | model (m : ThroughModel)
  deriving DecidableEq, Repr

/-- The shared registry's model catalog (`registry.models`). -/
structure Registry where
  models : PyAList ThroughModel
  deriving DecidableEq, Repr

/-- The state of a `BaseManyToManyForeignKeyField` instance that
`create_through_model` reads and mutates: the owner and target model names
(`self.owner.__name__`, `self.to.__name__`), `self.related_name`,
`self.through` and the shared registry (the excerpt uses
`self.owner.meta.registry` and `self.registry` interchangeably). -/
structure M2MState where
  owner : String
  toName : String
  related_name : Option String
  through : Option ThroughRef
  registry : Registry
  deriving DecidableEq, Repr

/-- Python truthiness of `self.through` (`if self.through:`): absent or the
empty string are falsy. -/
def throughTruthy : Option ThroughRef → Bool
  | Option.none => false
  | some (ThroughRef.name s) => !(s == "")
  | some (ThroughRef.model _) => true

/-- Resolution of a string-named `through` via the registry
(`self.owner.meta.registry.models[self.through]`). -/
def resolveThrough (r : Registry) : ThroughRef → Option ThroughModel
  | ThroughRef.name n => dictGet r.models n
  | ThroughRef.model m => some m

/-- `BaseManyToManyForeignKeyField.add_model_to_register`:
`self.registry.models[model.__name__] = model`. -/
def add_model_to_register (s : M2MState) (tm : ThroughModel) : M2MState :=
  { s with registry := { models := dictSet s.registry.models tm.name tm } }

/-- The in-place mutation the explicit-`through` branch performs on the
resolved bridge model: `meta.is_multi = True` and
`meta.multi_related = [self.to.__name__.lower()]`. -/
def throughMutated (tn : String) (m0 : ThroughModel) : ThroughModel :=
  { m0 with
    meta := { m0.meta with is_multi := true, multi_related := [strLower tn] } }

/-- `BaseManyToManyForeignKeyField.create_through_model`.  With a truthy
`self.through`: resolve a string name through the registry, set the resolved
model's `meta.is_multi` and `meta.multi_related = [self.to.__name__.lower()]`
in place, and return it (the in-place `meta` mutation is reflected on the
field's own `through` reference).  Otherwise synthesize a brand-new bridge
model, assign it to `self.through`, register it, and fall off the end of the
function (return `None`). -/
def create_through_model (s : M2MState) :
    Except String (Option ThroughModel × M2MState) :=
  if throughTruthy s.through then
    match s.through with
    | some ref =>
      match resolveThrough s.registry ref with
      | some m0 =>
        let m1 := throughMutated s.toName m0
        Except.ok (some m1, { s with through := some (ThroughRef.model m1) })
      | Option.none => Except.error ("KeyError: through")
    | Option.none => Except.error ("unreachable: truthy through is present")
  else
    let owner_name := s.owner
    let to_name := s.toName
    let class_name := owner_name ++ to_name
    let tablename := strLower (strLower owner_name ++ "s_" ++ to_name ++ "s")
    let rnTruthy := match s.related_name with
      | Option.none => false
      | some r => !(r == "")
    let owner_related_name :=
      if rnTruthy then (s.related_name.getD "") ++ "_" ++ strLower class_name ++ "s_set"
      else strLower owner_name ++ "_" ++ strLower class_name ++ "s_set"
    let to_related_name :=
      if rnTruthy then s.related_name.getD ""
      else strLower to_name ++ "_" ++ strLower class_name ++ "s_set"
    let fields :=
      dictSet (dictSet (dictSet [] "id" (IntegerField true))
        (strLower owner_name) (ForeignKey owner_name true CASCADE owner_related_name))
        (strLower to_name) (ForeignKey to_name true CASCADE to_related_name)
    let tm : ThroughModel :=
      { name := class_name
        meta := { tablename := tablename, is_multi := true,
                  multi_related := [strLower to_name] }
        fields := fields }
    let s2 := { s with through := some (ThroughRef.model tm) }
    Except.ok (Option.none, add_model_to_register s2 tm)

/-- The catalog of model classes the row materializer can reach (standing for
the registry's resolved model classes, keyed by class name). -/
abbrev Catalog := PyAList Model

/-- `"__" in related` together with `related.split("__", 1)`: the first path
segment and the joined remainder, or `none` when there is no separator. -/
def splitRelated (related : String) : Option (String × String) :=
  match related.splitOn "__" with
  | [] => Option.none
  | [_] => Option.none
  | p :: rest => some (p, "__".intercalate rest)

/-- `ModelRow.should_ignore_related_name`: true when the field name appears as
an exact `__`-separated segment of any eager-load path specification. -/
def should_ignore_related_name (related_name : String)
    (select_related : List String) : Bool :=
  select_related.any (fun rf => (rf.splitOn "__").contains related_name)

/-- The eager-load target resolution of `from_sqla_row`:
`cls.fields[name].target`, falling back on `getattr(cls, name).related_from`
when the name is not a declared field (`KeyError`); a declared field without a
resolvable target, or a missing reverse accessor, raises (`AttributeError`,
not recovered). -/
def resolveRelatedModel (cls : Model) (name : String) : Except String String :=
  if cls.fields.contains name then
    match dictGet cls.field_targets name with
    | some t => Except.ok t
    | Option.none => Except.error ("AttributeError: " ++ name)
  else
    match dictGet cls.related_from name with
    | some t => Except.ok t
    | Option.none => Except.error ("AttributeError: " ++ name)

/-- Model-class lookup by name in the catalog (`KeyError` when absent). -/
def catalogGet (cat : Catalog) (name : String) : Except String Model :=
  match dictGet cat name with
  | some m => Except.ok m
  | Option.none => Except.error ("KeyError: " ++ name)

/-- The inner loop of `from_sqla_row` step 2, building the partial stub's
value set `child_item`: for each column of the owner's table whose name is a
field of the target model, while the key `related` is absent from
`child_item`, store `row[related]` under the column's name.  Note the guard
tests for the key `related`, not for the column's name, exactly as the source
does. -/
def child_item_go (targetFields : List String) (related : String)
    (row : PyDict) : List String → PyDict → Except String PyDict
  | [], acc => Except.ok acc
  | col :: rest, acc =>
    if !(targetFields.contains col) then child_item_go targetFields related row rest acc
    else if dictContains acc related then child_item_go targetFields related row rest acc
    else match dictGet row related with
      | some v => child_item_go targetFields related row rest (dictSet acc col v)
      | Option.none => Except.error ("KeyError: " ++ related)

/-- `child_item` as assembled by `from_sqla_row` step 2 for one foreign-key
field. -/
def child_item_loop (columns : List String) (targetFields : List String)
    (related : String) (row : PyDict) : Except String PyDict :=
  child_item_go targetFields related row columns []

/-- Step 2 of `from_sqla_row`: for every `meta.foreign_key_fields` entry not
covered by an eager-load path, build the partial related stub from
`child_item` and store the constructed target instance under the field's
name. -/
def fkStubs (cat : Catalog) (cls : Model) (row : PyDict)
    (select_related : List String) (item : PyDict) : Except String PyDict :=
  cls.foreign_key_fields.foldlM (fun item rf =>
    if should_ignore_related_name rf.1 select_related then pure item
    else do
      let model_related ← catalogGet cat rf.2
      let child_item ← child_item_loop cls.columns model_related.fields rf.1 row
      let childInst ← EdgyBaseModel_init model_related child_item
      pure (dictSet item rf.1 (PyVal.inst childInst.model.className childInst.dict)))
    item

/-- Step 3 of `from_sqla_row`: every table column that is a declared field and
not yet populated receives the row's value. -/
def plainColumns (cls : Model) (row : PyDict) (item : PyDict) :
    Except String PyDict :=
  cls.columns.foldlM (fun item col =>
    if !(cls.fields.contains col) then pure item
    else if dictContains item col then pure item
    else match dictGet row col with
      | some v => pure (dictSet item col v)
      | Option.none => Except.error ("KeyError: " ++ col)) item

/-- `ModelRow.from_sqla_row(row, select_related)`.  `fuel` bounds the
recursion depth of nested eager loads (each recursive call shortens the path
specification, so any fuel exceeding the path depth is enough); the three
steps follow the source: step 1 materializes each eager-load path, splitting
a dotted path on its first `__` and recursing into the related model
(declared field first, reverse-relation fallback second); step 2 adds the
foreign-key stubs; step 3 copies the plain columns; finally `cls(**item)`. -/
def from_sqla_row (cat : Catalog) (fuel : Nat) (cls : Model) (row : PyDict)
    (select_related : List String) : Except String Instance :=
  match fuel with
  | 0 => Except.error ("RecursionError")
  | Nat.succ f => do
    let item ← select_related.foldlM (fun item related =>
      match splitRelated related with
      | some (first_part, remainder) => do
        let tname ← resolveRelatedModel cls first_part
        let model_cls ← catalogGet cat tname
        let child ← from_sqla_row cat f model_cls row [remainder]
        pure (dictSet item first_part (PyVal.inst child.model.className child.dict))
      | Option.none => do
        let tname ← resolveRelatedModel cls related
        let model_cls ← catalogGet cat tname
        let child ← from_sqla_row cat f model_cls row []
        pure (dictSet item related (PyVal.inst child.model.className child.dict))) []
    let item ← fkStubs cat cls row select_related item
    let item ← plainColumns cls row item
    EdgyBaseModel_init cls item

/-- The table object `sqlalchemy.Table` reflection yields (opaque here; only
identity matters to the excerpt). -/
structure SqlaTable where
  name : String
  deriving DecidableEq, Repr

/-- `edgy.exceptions.ImproperlyConfigured(detail=...)` raised `from e`: the
message and the chained cause. -/
structure ImproperlyConfigured where
  detail : String
  cause : Option String
  deriving DecidableEq, Repr

/-- `EdgyBaseReflectModel.reflect(tablename, metadata)`: the introspection
call (`sqlalchemy.Table(tablename, metadata, autoload_with=...)`, an external
effect passed in as its outcome) is returned on success; any failure is
re-raised as `ImproperlyConfigured` with the fixed message and the original
exception as cause.  `EdgyBaseReflectModel.build` delegates here with
`cls.meta.tablename`. -/
def reflect (tablename : String) (introspection : Except String SqlaTable) :
    Except ImproperlyConfigured SqlaTable :=
  match introspection with
  | Except.ok t => Except.ok t
  | Except.error e =>
    Except.error
      { detail := "Table with the name " ++ tablename ++ " does not exist."
        cause := some e }

/-- Example model for the unknown-keyword scenario: one declared field
`id`. -/
def exUser : Model :=
  { className := "User", pkname := "id", fields_mapping := ["id"],
    fields := ["id"] }

/-- Example model whose `meta.fields_mapping` lists a key `ghost` that is
neither in `fields` nor an attribute, the only shape on which the
invalid-keyword error is reachable. -/
def exGhost : Model :=
  { className := "User", pkname := "id", fields_mapping := ["id", "ghost"],
    fields := ["id"] }

/-- Example target model for row materialization: `Author` with fields `id`
and `name`. -/
def exAuthor : Model :=
  { className := "Author", pkname := "id", fields_mapping := ["id", "name"],
    fields := ["id", "name"], columns := ["id", "name"] }

/-- Example owner model for row materialization: `Book` with a plain `id` and
`name` and a foreign key `author` targeting `Author`. -/
def exBook : Model :=
  { className := "Book", pkname := "id",
    fields_mapping := ["id", "name", "author"],
    fields := ["id", "name", "author"],
    fieldKinds := [("author", FieldKind.fk "Author" "id")],
    foreign_key_fields := [("author", "Author")],
    field_targets := [("author", "Author")],
    columns := ["id", "name", "author"] }

/-- Catalog holding the example models. -/
def exCatalog : Catalog := [("Book", exBook), ("Author", exAuthor)]

/-- Example result row for `Book`: `id=1`, `name="Dune"`, `author=7` (the
foreign-key column holds the related primary key). -/
def exRow : PyDict :=
  [("id", PyVal.int 1), ("name", PyVal.str "Dune"), ("author", PyVal.int 7)]

/-- Example reflected model whose primary-key field is a foreign key, making
the relationship-expansion behaviour of attribute assignment observable on
`pk`. -/
def exReflect : Model :=
  { className := "RefModel", pkname := "id", fields_mapping := ["id"],
    fields := ["id"], fieldKinds := [("id", FieldKind.fk "Author" "id")] }

/-- The bridge model the spec predicts for owner `Team`, target `Member`, no
explicit `through` and no `related_name` ; stated from the spec's words for
comparison against what `create_through_model` synthesizes. -/
def specTeamMemberBridge : ThroughModel :=
  { name := "TeamMember"
    meta := { tablename := "teams_members", is_multi := true,
              multi_related := ["member"] }
    fields := [("id", IntegerField true),
               ("team", ForeignKey "Team" true CASCADE "team_teammembers_set"),
               ("member", ForeignKey "Member" true CASCADE "member_teammembers_set")] }

/-- Example explicit bridge model for the idempotence scenario. -/
def exBridge : ThroughModel :=
  { name := "Membership"
    meta := { tablename := "memberships", is_multi := false, multi_related := [] }
    fields := [] }

/-- Example many-to-many field state declared with an explicit `through`
model. -/
def exM2MExplicit : M2MState :=
  { owner := "Team", toName := "Member", related_name := Option.none,
    through := some (ThroughRef.model exBridge),
    registry := { models := [("Membership", exBridge)] } }

/-- Example many-to-many field state with no `through` at all. -/
def exM2MImplicit : M2MState :=
  { owner := "Team", toName := "Member", related_name := Option.none,
    through := Option.none, registry := { models := [] } }

/-- The field object `ManyToManyField(to=Member, related_name="Members")`
produces: the supplied reverse-access name is carried with its original
casing, because `validate` lower-cases only its own discarded copy of the
kwargs. -/
def exMembersField : BaseFieldObj :=
  { field_type := FVal.typeRef "sqlalchemy.ForeignKey"
    toVal := FVal.modelRef "Member"
    on_update := FVal.str CASCADE
    on_delete := FVal.str RESTRICT
    related_name := FVal.str "Members"
    null := FVal.bool true
    comment := FVal.none
    owner := FVal.none
    server_default := FVal.none
    server_onupdate := FVal.none
    through := FVal.none
    registry := FVal.none
    is_m2m := true
    is_o2o := FVal.bool false
    is_fk := FVal.bool false
    constraints := []
    extra := [] }

/-- The field object `ManyToManyField(to=Member, null=True)` produces. -/
def exNullField : BaseFieldObj :=
  { field_type := FVal.typeRef "sqlalchemy.ForeignKey"
    toVal := FVal.modelRef "Member"
    on_update := FVal.str CASCADE
    on_delete := FVal.str RESTRICT
    related_name := FVal.none
    null := FVal.bool true
    comment := FVal.none
    owner := FVal.none
    server_default := FVal.none
    server_onupdate := FVal.none
    through := FVal.none
    registry := FVal.none
    is_m2m := true
    is_o2o := FVal.bool false
    is_fk := FVal.bool false
    constraints := []
    extra := [] }

/-- `exBridge` after `create_through_model` marks it as a multi-relation
table of the target. -/
def exBridgeMutated : ThroughModel :=
  { exBridge with
    meta := { exBridge.meta with is_multi := true, multi_related := ["member"] } }

/-- `exM2MExplicit` after the first `create_through_model` call. -/
def exM2MExplicitAfter : M2MState :=
  { exM2MExplicit with through := some (ThroughRef.model exBridgeMutated) }


mutual

theorem pyValBeq_refl : (v : PyVal) → pyValBeq v v = true
  | PyVal.none => rfl
  | PyVal.int a => by simp [pyValBeq]
  | PyVal.str a => by simp [pyValBeq]
  | PyVal.bool a => by simp [pyValBeq]
  | PyVal.inst n d => by simp [pyValBeq, pyDictBeq_refl d]

theorem pyDictBeq_refl : (d : List (String × PyVal)) → pyDictBeq d d = true
  | [] => rfl
  | (k, v) :: t => by simp [pyDictBeq, pyValBeq_refl v, pyDictBeq_refl t]

end

theorem dictGet_dictSet_self {α : Type} (d : PyAList α) (k : String) (v : α) :
    dictGet (dictSet d k v) k = some v := by
  induction d with
  | nil => simp [dictGet, dictSet]
  | cons a t ih =>
    by_cases h : (a.1 == k) = true
    · simp [dictSet, dictGet, h]
    · have h2 : (a.1 == k) = false := by simpa using h
      simp [dictSet, dictGet, h2, ih]

theorem dictGet_dictSet_ne {α : Type} (d : PyAList α) (k k2 : String) (v : α)
    (hne : k2 ≠ k) : dictGet (dictSet d k v) k2 = dictGet d k2 := by
  have hkk : (k == k2) = false := by
    simp only [beq_eq_false_iff_ne]
    exact fun he => hne he.symm
  induction d with
  | nil => simp [dictGet, dictSet, hkk]
  | cons a t ih =>
    by_cases h : (a.1 == k) = true
    · have ha : a.1 = k := by simpa using h
      have ha2 : (a.1 == k2) = false := by rw [ha]; exact hkk
      simp [dictSet, dictGet, h, hkk, ha2]
    · have h2 : (a.1 == k) = false := by simpa using h
      by_cases hp : (a.1 == k2) = true
      · simp [dictSet, dictGet, h2, hp]
      · have hp2 : (a.1 == k2) = false := by simpa using hp
        simp [dictSet, dictGet, h2, hp2, ih]

theorem dictGet_dictRemove_ne {α : Type} (d : PyAList α) (k k2 : String)
    (hne : k2 ≠ k) : dictGet (dictRemove d k) k2 = dictGet d k2 := by
  induction d with
  | nil => rfl
  | cons a t ih =>
    by_cases h : (a.1 == k) = true
    · have ha : a.1 = k := by simpa using h
      have ha2 : (a.1 == k2) = false := by
        simp only [beq_eq_false_iff_ne]; rw [ha]; exact fun he => hne he.symm
      simp [dictRemove, dictGet, h, ha2, ih]
    · have h2 : (a.1 == k) = false := by simpa using h
      by_cases hp : (a.1 == k2) = true
      · simp [dictRemove, dictGet, h2, hp]
      · have hp2 : (a.1 == k2) = false := by simpa using hp
        simp [dictRemove, dictGet, h2, hp2, ih]

theorem dictContains_eq_false_of_get_none {α : Type} (d : PyAList α) (k : String)
    (h : dictGet d k = Option.none) : dictContains d k = false := by
  induction d with
  | nil => rfl
  | cons a t ih =>
    by_cases hp : (a.1 == k) = true
    · simp [dictGet, hp] at h
    · have hp2 : (a.1 == k) = false := by simpa using hp
      simp only [dictGet, hp2, if_false] at h
      simp [dictContains, hp2, ih h]

theorem dictGet_append_of_none {α : Type} (d1 d2 : PyAList α) (k : String)
    (h : dictGet d1 k = Option.none) :
    dictGet (d1 ++ d2) k = dictGet d2 k := by
  induction d1 with
  | nil => rfl
  | cons a t ih =>
    by_cases hp : (a.1 == k) = true
    · simp [dictGet, hp] at h
    · have hp2 : (a.1 == k) = false := by simpa using hp
      simp only [dictGet, hp2, if_false] at h
      simp [dictGet, hp2, List.cons_append, ih h]

theorem dictSet_eq_append_of_get_none {α : Type} (d : PyAList α) (k : String)
    (v : α) (h : dictGet d k = Option.none) :
    dictSet d k v = d ++ [(k, v)] := by
  induction d with
  | nil => rfl
  | cons a t ih =>
    by_cases hp : (a.1 == k) = true
    · simp [dictGet, hp] at h
    · have hp2 : (a.1 == k) = false := by simpa using hp
      simp only [dictGet, hp2, if_false] at h
      simp [dictSet, hp2, ih h]

/-- C1, counterexample.  The claim predicts that constructing a model instance
with the keyword `bogus` — neither a declared field of `exUser` nor one of its
attributes — fails with an invalid-keyword error.  In fact
`setup_model_fields_from_kwargs` filters the kwargs down to
`meta.fields_mapping` keys before the invalid-keyword check runs, so the
keyword is silently dropped and construction succeeds, producing an instance
with empty storage. -/
theorem unknown_keyword_accepted_cex :
    EdgyBaseModel_init exUser [("bogus", PyVal.int 1)] =
      Except.ok { model := exUser, dict := [] } := rfl

/-- C1, amended.  A keyword that is not a key of the model's field mapping is
silently dropped (construction succeeds with the keyword absent from
storage); the invalid-keyword error naming the keyword and the class name is
raised exactly for a keyword that is in the field mapping but neither in
`fields` nor an existing attribute. -/
theorem unknown_vs_unmapped_keyword (m : Model) (k k2 : String) (v : PyVal)
    (hk : k ∉ m.fields_mapping) (hkpk : k ≠ "pk")
    (h1 : k2 ∈ m.fields_mapping)
    (h2 : k2 ∉ m.fields) (h3 : k2 ∉ m.hasattrs)
    (h2pk : k2 ≠ "pk") :
    EdgyBaseModel_init m [(k, v)] = Except.ok { model := m, dict := [] } ∧
    EdgyBaseModel_init m [(k2, v)] =
      Except.error ("Invalid keyword " ++ k2 ++ " for class " ++ m.className) := by
  have hbeq : (k == "pk") = false := by
    simp only [beq_eq_false_iff_ne]; exact hkpk
  have hbeq2 : (k2 == "pk") = false := by
    simp only [beq_eq_false_iff_ne]; exact h2pk
  constructor
  · simp [EdgyBaseModel_init, setup_model_fields_from_kwargs, dictGet, hbeq,
      List.filter, hk, checkKeywords]
  · simp [EdgyBaseModel_init, setup_model_fields_from_kwargs, dictGet, hbeq2,
      List.filter, h1, checkKeywords, h2, h3]

/-- C1, witness for the amended theorem at the concrete model `exGhost`. -/
theorem unknown_vs_unmapped_keyword_witness :
    EdgyBaseModel_init exGhost [("bogus", PyVal.int 1)] =
      Except.ok { model := exGhost, dict := [] } ∧
    EdgyBaseModel_init exGhost [("ghost", PyVal.int 1)] =
      Except.error ("Invalid keyword " ++ "ghost" ++ " for class " ++ "User") :=
  unknown_vs_unmapped_keyword exGhost "bogus" "ghost" (PyVal.int 1)
    (by decide) (by decide) (by decide) (by decide) (by decide) (by decide)

/-- C2.  Constructing `ManyToManyField(to=Member, related_name="Members")`
succeeds with no warning, but the resulting field carries the reverse-access
name with its original casing, `"Members"`: `validate` computes the
lower-cased `"members"` only into its own copy of the kwargs (Python
`cls.validate(**kwargs)` passes a fresh dictionary), which the factory
discards — so the documented lower-casing is lost. -/
theorem m2m_related_name_preserves_case :
    ManyToManyField_new (FVal.modelRef "Member") FVal.none
        [("related_name", FVal.str "Members")] =
      Except.ok (exMembersField, false) ∧
    exMembersField.related_name = FVal.str "Members" ∧
    ManyToManyField_validate [("related_name", FVal.str "Members")] =
      Except.ok [("related_name", FVal.str "members")] ∧
    FVal.str "Members" ≠ FVal.str "members" :=
  ⟨rfl, rfl, rfl, by decide⟩

/-- C4, counterexample.  On the reflected model variant, assigning to the `pk`
property does not write the raw value: the setter is `setattr`, which
dispatches through `EdgyBaseModel.__setattr__`, so a primary-key field that is
a relationship field stores the expanded related stub instead of the raw
value. -/
theorem reflect_pk_setter_expands_cex :
    EdgyBaseReflectModel_pk_set { model := exReflect, dict := [] } (PyVal.int 7) =
      Except.ok { model := exReflect,
                  dict := [("id", PyVal.inst "Author" [("id", PyVal.int 7)])] } ∧
    PyVal.inst "Author" [("id", PyVal.int 7)] ≠ PyVal.int 7 :=
  ⟨rfl, nofun⟩

/-- C4, amended.  Reading the reflected variant's `pk` when the primary-key
attribute is unset returns the absent value (`None`) rather than failing; but
assigning to the reflected variant's `pk` goes through the ordinary
attribute-assignment logic (`__setattr__`), so relationship expansion IS
applied — it is the base variant's `pk` setter that bypasses `__setattr__` and
writes the raw value directly via `edgy_setattr`. -/
theorem reflect_pk_contract (m : Model) (d : PyDict) (v : PyVal) (t p : String)
    (h0 : dictGet d m.pkname = Option.none)
    (h1 : m.pkname ∈ m.fields)
    (h2 : dictGetD m.fieldKinds m.pkname FieldKind.plain = FieldKind.fk t p) :
    EdgyBaseReflectModel_pk_get { model := m, dict := d } = PyVal.none ∧
    EdgyBaseReflectModel_pk_set { model := m, dict := d } v =
      Except.ok (edgy_setattr { model := m, dict := d } m.pkname
        (PyVal.inst t [(p, v)])) ∧
    EdgyBaseModel_pk_set { model := m, dict := d } v =
      edgy_setattr { model := m, dict := d } m.pkname v := by
  refine ⟨?_, ?_, rfl⟩
  · simp [EdgyBaseReflectModel_pk_get, h0]
  · simp [EdgyBaseReflectModel_pk_set, EdgyBaseModel_setattr, h1, h2,
      expand_relationship]

/-- C4, witness for the amended theorem at the concrete reflected model. -/
theorem reflect_pk_contract_witness :
    EdgyBaseReflectModel_pk_get { model := exReflect, dict := [] } = PyVal.none ∧
    EdgyBaseReflectModel_pk_set { model := exReflect, dict := [] } (PyVal.int 7) =
      Except.ok (edgy_setattr { model := exReflect, dict := [] } exReflect.pkname
        (PyVal.inst "Author" [("id", PyVal.int 7)])) ∧
    EdgyBaseModel_pk_set { model := exReflect, dict := [] } (PyVal.int 7) =
      edgy_setattr { model := exReflect, dict := [] } exReflect.pkname (PyVal.int 7) :=
  reflect_pk_contract exReflect [] (PyVal.int 7) "Author" "id" rfl (by decide) rfl

/-- C6.  A many-to-many field on owner `Team` targeting `Member`, with no
explicit `through` and no `related_name`, synthesizes (whatever the prior
registry) the bridge model `TeamMember` with table name `teams_members`, an
auto-incrementing integer primary key `id`, a nullable cascade-on-delete
foreign key `team` with reverse name `team_teammembers_set` and a nullable
cascade-on-delete foreign key `member` with reverse name
`member_teammembers_set` (see `specTeamMemberBridge`), assigns it to the
field and registers it. -/
theorem create_through_model_team_member (r : Registry) :
    create_through_model
        { owner := "Team", toName := "Member", related_name := Option.none,
          through := Option.none, registry := r } =
      Except.ok (Option.none,
        { owner := "Team", toName := "Member", related_name := Option.none,
          through := some (ThroughRef.model specTeamMemberBridge),
          registry := { models := dictSet r.models "TeamMember" specTeamMemberBridge } }) :=
  rfl

/-- C8.  Whatever the reason the introspection step fails — table missing,
connectivity, anything — `reflect` raises `ImproperlyConfigured` whose
message is exactly `"Table with the name {tablename} does not exist."`, with
the original exception attached as its cause. -/
theorem reflect_failure_message (tablename : String)
    (res : Except String SqlaTable) (e : String) (h : res = Except.error e) :
    reflect tablename res =
      Except.error
        { detail := "Table with the name " ++ tablename ++ " does not exist."
          cause := some e } := by
  rw [h]; rfl

/-- C8, witness at a concrete table name and failure. -/
theorem reflect_failure_message_witness :
    reflect "users" (Except.error "connection refused") =
      Except.error
        { detail := "Table with the name " ++ "users" ++ " does not exist."
          cause := some "connection refused" } :=
  reflect_failure_message "users" (Except.error "connection refused")
    "connection refused" rfl

/-- C9.  On a model whose primary-key field is named `id`, constructing with
the convenience keyword `pk=v` and constructing with `id=v` produce the very
same backing storage `{"id": v}`; the two instances compare equal under the
model's `__eq__`, and both report `.pk` equal to `v`. -/
theorem pk_keyword_equivalent (m : Model) (v : PyVal)
    (hpk : m.pkname = "id") (hmap : "id" ∈ m.fields_mapping)
    (hfld : "id" ∈ m.fields) :
    EdgyBaseModel_init m [("pk", v)] =
      Except.ok { model := m, dict := [("id", v)] } ∧
    EdgyBaseModel_init m [("id", v)] =
      Except.ok { model := m, dict := [("id", v)] } ∧
    instanceEq { model := m, dict := [("id", v)] }
      { model := m, dict := [("id", v)] } = true ∧
    EdgyBaseModel_pk_get { model := m, dict := [("id", v)] } = some v := by
  refine ⟨?_, ?_, ?_, ?_⟩
  · simp [EdgyBaseModel_init, setup_model_fields_from_kwargs, dictGet,
      dictRemove, dictSet, hpk, List.filter, hmap, checkKeywords, hfld]
  · simp [EdgyBaseModel_init, setup_model_fields_from_kwargs, dictGet,
      hpk, List.filter, hmap, checkKeywords, hfld]
  · simp only [instanceEq, Bool.and_eq_true, List.all_eq_true]
    exact ⟨by simp, fun k _ => pyValBeq_refl _⟩
  · simp [EdgyBaseModel_pk_get, hpk, dictGet]

/-- C9, witness at the concrete model `exUser` and value `7`. -/
theorem pk_keyword_equivalent_witness :
    EdgyBaseModel_init exUser [("pk", PyVal.int 7)] =
      Except.ok { model := exUser, dict := [("id", PyVal.int 7)] } ∧
    EdgyBaseModel_init exUser [("id", PyVal.int 7)] =
      Except.ok { model := exUser, dict := [("id", PyVal.int 7)] } ∧
    instanceEq { model := exUser, dict := [("id", PyVal.int 7)] }
      { model := exUser, dict := [("id", PyVal.int 7)] } = true ∧
    EdgyBaseModel_pk_get { model := exUser, dict := [("id", PyVal.int 7)] } =
      some (PyVal.int 7) :=
  pk_keyword_equivalent exUser (PyVal.int 7) rfl (by decide) (by decide)

/-- C3, counterexample.  Materializing a `Book` row (`id=1`, `name="Dune"`,
`author=7`) with no eager load builds the `author` stub not from a
single-entry value set keyed by the related field's name (`{"author": 7}`),
but from `{"id": 7, "name": 7}`: the guard `related not in child_item` keeps
failing (entries are stored under column names), so every column whose name is
a field of `Author` receives the row's foreign-key value. -/
theorem fk_stub_multi_entry_cex :
    from_sqla_row exCatalog 1 exBook exRow [] =
      Except.ok
        { model := exBook,
          dict := [("author", PyVal.inst "Author"
                      [("id", PyVal.int 7), ("name", PyVal.int 7)]),
                   ("id", PyVal.int 1), ("name", PyVal.str "Dune")] } ∧
    ([("id", PyVal.int 7), ("name", PyVal.int 7)] : PyDict) ≠
      [("author", PyVal.int 7)] :=
  ⟨rfl, fun hcontra => by
    injection hcontra with hh1 hh2
    exact List.noConfusion hh2⟩

theorem child_item_go_spec (tf : List String) (related : String) (row : PyDict)
    (v : PyVal) (h1 : related ∉ tf) (h2 : dictGet row related = some v) :
    ∀ (cols : List String) (acc : PyDict), cols.Nodup →
      (∀ c ∈ cols, dictGet acc c = Option.none) →
      dictGet acc related = Option.none →
      child_item_go tf related row cols acc =
        Except.ok (acc ++ (cols.filter (fun c => tf.contains c)).map (fun c => (c, v))) := by
  intro cols
  induction cols with
  | nil =>
    intro acc _ _ _
    simp [child_item_go]
  | cons col rest ih =>
    intro acc hnd hacc hrel
    have hndr : rest.Nodup := (List.nodup_cons.mp hnd).2
    by_cases hc : col ∈ tf
    · have hcb : tf.contains col = true := by simpa using hc
      have hcr : dictContains acc related = false :=
        dictContains_eq_false_of_get_none _ _ hrel
      have hcol : dictGet acc col = Option.none := hacc col (by simp)
      have hset : dictSet acc col v = acc ++ [(col, v)] :=
        dictSet_eq_append_of_get_none _ _ _ hcol
      have hcolne : col ≠ related := fun he => h1 (he ▸ hc)
      have step : child_item_go tf related row (col :: rest) acc =
          child_item_go tf related row rest (dictSet acc col v) := by
        simp only [child_item_go, hcb, hcr, h2, Bool.not_true, Bool.false_eq_true,
          if_false]
      rw [step, hset]
      have hacc2 : ∀ c ∈ rest, dictGet (acc ++ [(col, v)]) c = Option.none := by
        intro c hcmem
        have hcne : (col == c) = false := by
          simp only [beq_eq_false_iff_ne]
          intro he
          exact (List.nodup_cons.mp hnd).1 (he ▸ hcmem)
        rw [dictGet_append_of_none _ _ _ (hacc c (List.mem_cons_of_mem _ hcmem))]
        simp [dictGet, hcne]
      have hrel2 : dictGet (acc ++ [(col, v)]) related = Option.none := by
        have hcne : (col == related) = false := by
          simp only [beq_eq_false_iff_ne]; exact hcolne
        rw [dictGet_append_of_none _ _ _ hrel]
        simp [dictGet, hcne]
      rw [ih (acc ++ [(col, v)]) hndr hacc2 hrel2]
      simp [hc, List.filter_cons, List.append_assoc]
    · have hcb : tf.contains col = false := by simpa using hc
      have step : child_item_go tf related row (col :: rest) acc =
          child_item_go tf related row rest acc := by
        simp only [child_item_go, hcb, Bool.not_false, if_true]
      rw [step, ih acc hndr (fun c hcm => hacc c (List.mem_cons_of_mem _ hcm)) hrel]
      simp [hc, List.filter_cons]

/-- C3, amended.  For a foreign-key field not covered by an eager-load path,
the partial stub's value set is not a single entry under the related field's
name: in the (typical) case where the related field's own name is not a field
of the target model, the loop assigns the row's foreign-key value to EVERY
column of the current row whose name matches a field of the target model,
each stored under that column's name. -/
theorem fk_stub_value_set (cols tf : List String) (related : String)
    (row : PyDict) (v : PyVal) (hnd : cols.Nodup) (h1 : related ∉ tf)
    (h2 : dictGet row related = some v) :
    child_item_loop cols tf related row =
      Except.ok ((cols.filter (fun c => tf.contains c)).map (fun c => (c, v))) := by
  have := child_item_go_spec tf related row v h1 h2 cols [] hnd
    (fun c _ => rfl) rfl
  simpa [child_item_loop] using this

/-- C3, witness for the amended theorem on the `Book`/`Author` row. -/
theorem fk_stub_value_set_witness :
    child_item_loop ["id", "name", "author"] ["id", "name"] "author" exRow =
      Except.ok [("id", PyVal.int 7), ("name", PyVal.int 7)] :=
  fk_stub_value_set ["id", "name", "author"] ["id", "name"] "author" exRow
    (PyVal.int 7) (by decide) (by decide) rfl

theorem ForeignKeyFieldFactory_new_null (kw : FDict) (f : BaseFieldObj)
    (h : ForeignKeyFieldFactory_new kw = Except.ok f) :
    f.null = dictGetD (dictRemove kw "to") "null" (FVal.bool false) := by
  simp only [ForeignKeyFieldFactory_new] at h
  cases hv : ManyToManyField_validate kw with
  | error e => rw [hv] at h; exact Except.noConfusion h
  | ok d =>
    rw [hv] at h
    simp only [popD] at h
    cases h
    rfl

/-- C5.  Every successful many-to-many field construction carries `null`
forced to true, and the warning is emitted exactly when the caller passed a
truthy `null` (so an absent `null` still forces true and emits no
warning). -/
theorem m2m_null_forced (toArg through : FVal) (kwargs : FDict)
    (f : BaseFieldObj) (w : Bool)
    (h : ManyToManyField_new toArg through kwargs = Except.ok (f, w)) :
    f.null = FVal.bool true ∧
    w = fvalTruthy (dictGetD kwargs "null" FVal.none) := by
  simp only [ManyToManyField_new] at h
  split at h
  next e heq => exact Except.noConfusion h
  next f2 heq =>
    have h3 := Except.ok.inj h
    have h4 : f2 = f := congrArg Prod.fst h3
    have h5 : fvalTruthy (dictGetD kwargs "null" FVal.none) = w :=
      congrArg Prod.snd h3
    constructor
    · rw [← h4]
      have hn := ForeignKeyFieldFactory_new_null _ _ heq
      rw [hn]
      simp only [dictGetD]
      rw [dictGet_dictRemove_ne _ _ _ (by decide : ("null" : String) ≠ "to")]
      rw [dictGet_dictSet_self]
      rfl
    · exact h5.symm

/-- C5, witness: `ManyToManyField(to=Member, null=True)` warns and still
forces `null` to true. -/
theorem m2m_null_forced_witness :
    exNullField.null = FVal.bool true ∧
    true = fvalTruthy (dictGetD [("null", FVal.bool true)] "null" FVal.none) :=
  m2m_null_forced (FVal.modelRef "Member") FVal.none
    [("null", FVal.bool true)] exNullField true rfl

/-- C7.  On a field declared with an explicit (truthy, resolvable) `through`,
`create_through_model` returns the same bridge model on both of two successive
calls, reaches the same field state, and leaves the registry untouched — no
second model is created and no catalog entry is added. -/
theorem explicit_through_idempotent (s : M2MState) (ref : ThroughRef)
    (m0 : ThroughModel) (h : s.through = some ref)
    (ht : throughTruthy s.through = true)
    (hres : resolveThrough s.registry ref = some m0) :
    ∃ m1 s1,
      create_through_model s = Except.ok (some m1, s1) ∧
      create_through_model s1 = Except.ok (some m1, s1) ∧
      s1.registry = s.registry := by
  have ht2 : throughTruthy (some ref) = true := h ▸ ht
  refine ⟨throughMutated s.toName m0,
    { s with through := some (ThroughRef.model (throughMutated s.toName m0)) },
    ?_, ?_, rfl⟩
  · simp only [create_through_model, h, ht2, if_true, hres]
  · rfl

/-- C7, witness at the concrete explicit-through field state. -/
theorem explicit_through_idempotent_witness :
    ∃ m1 s1,
      create_through_model exM2MExplicit = Except.ok (some m1, s1) ∧
      create_through_model s1 = Except.ok (some m1, s1) ∧
      s1.registry = exM2MExplicit.registry :=
  explicit_through_idempotent exM2MExplicit (ThroughRef.model exBridge)
    exBridge rfl rfl rfl

/-- C10.  `create_through_model` returns the bridge model only in the
explicit-through branch; with no explicit `through` it synthesizes the new
bridge model, assigns it to the field's `through`, registers it under its
class name — and returns `None`. -/
theorem create_through_model_return (s : M2MState) :
    (s.through = Option.none →
      ∃ tm : ThroughModel,
        create_through_model s = Except.ok (Option.none,
          { s with
            through := some (ThroughRef.model tm),
            registry := { models := dictSet s.registry.models tm.name tm } })) ∧
    (∀ res s2, throughTruthy s.through = true →
      create_through_model s = Except.ok (res, s2) → res.isSome = true) := by
  obtain ⟨ow, tn, rn, th, rg⟩ := s
  constructor
  · intro h
    cases h
    exact ⟨_, rfl⟩
  · intro res s2 ht heq
    cases th with
    | none => simp [throughTruthy] at ht
    | some ref =>
      simp only [create_through_model] at heq
      simp only [ht, if_true] at heq
      cases hr : resolveThrough rg ref with
      | none =>
        simp only [hr] at heq
        exact Except.noConfusion heq
      | some m0 =>
        simp only [hr] at heq
        have h3 := Except.ok.inj heq
        injection h3 with hres hs2
        rw [← hres]
        rfl

/-- C10, witness: the implicit branch returns `None` while assigning and
registering, and the explicit branch's result is a model. -/
theorem create_through_model_return_witness :
    (∃ tm : ThroughModel,
      create_through_model exM2MImplicit = Except.ok (Option.none,
        { exM2MImplicit with
          through := some (ThroughRef.model tm),
          registry := { models := dictSet exM2MImplicit.registry.models tm.name tm } })) ∧
    (some exBridgeMutated).isSome = true :=
  ⟨(create_through_model_return exM2MImplicit).1 rfl,
   (create_through_model_return exM2MExplicit).2 (some exBridgeMutated)
     exM2MExplicitAfter rfl rfl⟩
